import Mathlib

/-!
# Verification of the PubMed bulk-retrieval engine

This file gives a shallow embedding, in Lean 4, of the core logic of
`src/data_sources/PubMed.py` (rate limiter, paginated fetcher, recursive
date-window loader, record normalizer, and the job orchestrator's status /
progress bookkeeping), and settles the specification claims C1–C10 against it.

Conventions of the embedding:
* Python strings are Lean `String`s.  Python's `str.strip()` / `str.zfill()`
  are modelled over ASCII whitespace (`pyStrip`, `zfill`); the records this
  program handles are ASCII-labelled XML fields.
* Python truthiness of an optional string (`None` and `""` are falsy) is
  `pyTruthy`.
* The XML plumbing (`ElementTree.findtext`, `itertext`, attribute access) is
  the standard library, not this repository; raw records are therefore
  modelled as structures holding exactly the values the parser extracts
  (`Option String` for a `findtext`, a list of `(Label, text)` pairs for the
  abstract sections, and so on).  Everything the repository then *does* with
  those values is translated statement by statement.
* Python dicts (`article_dict`) are insertion-ordered association lists with
  replace-or-append update (`dictSet`), matching CPython semantics.
* Network responses are oracles passed in as functions (a window's ESearch
  count, the article list of an EFetch page).
* Unbounded `while` loops and the recursive window splitter take an explicit
  fuel argument; theorems state how much fuel suffices.
-/

/-! ## Python string primitives -/

/-- ASCII whitespace, as recognised by Python's `str.strip` (`' '`, `\t`,
`\n`, `\r`, `\x0b`, `\x0c`). -/
def pyIsSpace (c : Char) : Bool :=
  c = ' ' || c = '\t' || c = '\n' || c = '\r' || c = '\x0b' || c = '\x0c'

/-- Remove leading whitespace from a character list (Python `lstrip`). -/
def lstripL (l : List Char) : List Char := l.dropWhile pyIsSpace

/-- Remove trailing whitespace from a character list (Python `rstrip`). -/
def rstripL : List Char → List Char
  | [] => []
  | c :: rest =>
    let r := rstripL rest
    if r = [] && pyIsSpace c then [] else c :: r

/-- Python `str.strip()`: drop leading and trailing whitespace. -/
def pyStrip (s : String) : String := ⟨rstripL (lstripL s.data)⟩

/-- Python `str.rstrip()`: drop trailing whitespace only. -/
def pyRstrip (s : String) : String := ⟨rstripL s.data⟩

/-- Truthiness of an optional Python string: `None` and `""` are falsy. -/
def pyTruthy : Option String → Bool
  | none => false
  | some s => !(s == "")

/-- Python `str.zfill(width)`: left-pad with `'0'` to `width` characters,
keeping a leading sign in place. -/
def zfill (width : Nat) (s : String) : String :=
  if width ≤ s.length then s
  else
    let pad : List Char := List.replicate (width - s.length) '0'
    match s.data with
    | '+' :: rest => ⟨'+' :: (pad ++ rest)⟩
    | '-' :: rest => ⟨'-' :: (pad ++ rest)⟩
    | l => ⟨pad ++ l⟩

/-! ## Python dict model (insertion-ordered association list) -/

/-- A Python value stored in an article dictionary. -/
inductive PyVal where
  | vnone
  | vstr (s : String)
  | vlist (xs : List String)
deriving DecidableEq

/-- `Option String` as stored by `dict[...] = findtext(...)`. -/
def optVal : Option String → PyVal
  | none => PyVal.vnone
  | some s => PyVal.vstr s

abbrev PyDict := List (String × PyVal)

/-- `d[k] = v` on an insertion-ordered dict: replace in place when the key
exists, append otherwise (CPython semantics). -/
def dictSet (d : PyDict) (k : String) (v : PyVal) : PyDict :=
  if d.any (fun p => p.1 == k) then
    d.map (fun p => if p.1 == k then (k, v) else p)
  else d ++ [(k, v)]

/-- `d.get(k)`: first (and, by construction, only) binding of `k`. -/
def dictGet (d : PyDict) (k : String) : Option PyVal :=
  (d.find? (fun p => p.1 == k)).map Prod.snd

/-- String-valued dict used for the `sections` pass. -/
def strDictSet (d : List (String × String)) (k v : String) :
    List (String × String) :=
  if d.any (fun p => p.1 == k) then
    d.map (fun p => if p.1 == k then (k, v) else p)
  else d ++ [(k, v)]

/-! ## RateLimiter (`CustomPubMed._exceededRateLimit`, lines 43–52)

`_requestsMade` holds the timestamps recorded after each completed request;
`_exceededRateLimit` first evicts entries at least one second old (a pruning
that, as long as check times are non-decreasing, never removes an entry that
a later check would still count) and then reports whether at least
`_rateLimit = 3` retained timestamps fall in the trailing one-second
interval.  Time is modelled as `ℚ` (seconds). -/

/-- `len([t for t in requestsMade if t > now - 1]) >= 3`. -/
def exceededRateLimit (requestsMade : List ℚ) (now : ℚ) : Bool :=
  decide (3 ≤ (requestsMade.filter (fun t => decide (now - 1 < t))).length)

/-- The request history visible at the check of request `i`: one recorded
timestamp per earlier request (`_get` appends exactly one per request). -/
def priorRecords (r : ℕ → ℚ) (i : ℕ) : List ℚ :=
  (List.range i).map r

/-! ## RecordNormalizer (`parse_pubmed_article`, `parse_pubmed_book_article`,
`_convert_month_to_number`, lines 155–339) -/

/-- ASCII lowercase of one character (`str.lower` on the A–Z range, which is
all `strptime`'s month matching needs). -/
def asciiLower (c : Char) : Char :=
  if 'A' ≤ c ∧ c ≤ 'Z' then Char.ofNat (c.toNat + 32) else c

/-- `month_str[:3].lower()`: the first three characters, lowercased. -/
def strLower3 (s : String) : String := ⟨(s.data.take 3).map asciiLower⟩

/-- The table behind `datetime.strptime(month_str[:3], '%b')` followed by
`f"{datetime_obj.month:02}"`: English three-letter month abbreviations
(matched case-insensitively) and their zero-padded numbers. -/
def month_abbrevs : List (String × String) :=
  [("jan", "01"), ("feb", "02"), ("mar", "03"), ("apr", "04"), ("may", "05"),
   ("jun", "06"), ("jul", "07"), ("aug", "08"), ("sep", "09"), ("oct", "10"),
   ("nov", "11"), ("dec", "12")]

/-- `_convert_month_to_number` (lines 262–269): parse the first three
characters as a month abbreviation and render `f"{month:02}"`; on a
`ValueError` the input is returned unchanged. -/
def convert_month_to_number (month_str : String) : String :=
  match month_abbrevs.lookup (strLower3 month_str) with
  | some m => m
  | none => month_str

/-- Publication-date assembly for an article (lines 203–227).  The input is
`None` when the record has no `PubDate` element, otherwise the `Year`,
`Month`, `Day` texts.  The `except` arms at lines 214–215 and 220–221 are
dead code: `_convert_month_to_number` swallows the `ValueError` and returns
its input, and `str.zfill` cannot raise, so the `try` bodies always
succeed. -/
def article_publication_date :
    Option (Option String × Option String × Option String) → String
  | none => "Unknown"
  | some (year, month, day) =>
    if pyTruthy year && pyTruthy month && pyTruthy day then
      year.getD "" ++ "-" ++ convert_month_to_number (month.getD "") ++ "-" ++
        zfill 2 (day.getD "")
    else if pyTruthy year && pyTruthy month then
      year.getD "" ++ "-" ++ convert_month_to_number (month.getD "")
    else if pyTruthy year then year.getD ""
    else "Unknown"

/-- Publication-date assembly for a book article (lines 296–316): same
cascade but with `month.zfill(2)` instead of the abbreviation conversion
(the `except` arm at line 307–308 is dead: `zfill` cannot raise). -/
def book_publication_date :
    Option (Option String × Option String × Option String) → String
  | none => "Unknown"
  | some (year, month, day) =>
    if pyTruthy year && pyTruthy month && pyTruthy day then
      year.getD "" ++ "-" ++ zfill 2 (month.getD "") ++ "-" ++
        zfill 2 (day.getD "")
    else if pyTruthy year && pyTruthy month then
      year.getD "" ++ "-" ++ month.getD ""
    else if pyTruthy year then year.getD ""
    else "Unknown"

/-- One `Author` element, as read by the parser. -/
structure RawAuthor where
  lastName : Option String
  foreName : Option String
  initials : Option String
  collectiveName : Option String

/-- Author display name (lines 191–200): the collective name verbatim when
truthy, else `" ".join([fore_name, last_name]).strip()` (the `or ""`
defaults make a missing part the empty string; `initials` is read but
unused). -/
def author_name (a : RawAuthor) : String :=
  if pyTruthy a.collectiveName then a.collectiveName.getD ""
  else pyStrip (a.foreName.getD "" ++ " " ++ a.lastName.getD "")

/-- Keyword texts (lines 230–234): keep the stripped text of each keyword
element whose text is truthy. -/
def keyword_list (ks : List (Option String)) : List String :=
  ks.filterMap fun k => if pyTruthy k then some (pyStrip (k.getD "")) else none

/-- The abstract-section loop (lines 172–186): for each `AbstractText`
section (label attribute, joined `itertext`), strip the text, skip it when
an earlier section produced the same stripped text, and otherwise append
`"<Label>: <text>\n"` (or `"<text>\n"` when the label is falsy).  `seen` is
the `current_abstracts` accumulator. -/
def abstract_concat : List (Option String × String) → List String → String
  | [], _ => ""
  | (label, raw) :: rest, seen =>
    let section_text := pyStrip raw
    if section_text ∈ seen then abstract_concat rest seen
    else
      (if pyTruthy label then label.getD "" ++ ": " ++ section_text ++ "\n"
       else section_text ++ "\n") ++ abstract_concat rest (seen ++ [section_text])

/-- The Abstract assembly as claim C8 words it, for comparison with the
code: the same concatenation and duplicate-skipping, but with only
*trailing* whitespace trimmed at the end, where the code strips both
ends. -/
def claim_abstract_assembly (secs : List (Option String × String)) : String :=
  pyRstrip (abstract_concat secs [])

/-- The `sections` dict (lines 244–249): one entry per section whose label
and stripped content are both truthy; later sections with the same label
overwrite earlier ones. -/
def sections_dict (secs : List (Option String × String)) :
    List (String × String) :=
  secs.foldl
    (fun d p =>
      let content := pyStrip p.2
      if pyTruthy p.1 && !(content == "") then strDictSet d (p.1.getD "") content
      else d)
    []

/-- A `PubmedArticle` element, reduced to the values the parser reads. -/
structure RawArticle where
  pmid : Option String
  articleTitle : Option String
  abstractSections : Option (List (Option String × String))
  authors : List RawAuthor
  pubDate : Option (Option String × Option String × Option String)
  keywords : List (Option String)
  journalTitle : Option (Option String)
  copyrightInfo : Option (Option String)

/-- `parse_pubmed_article` (lines 155–260), building the article dict in
source order.  `abstractSections = none` models a record with no `Abstract`
element (both passes over `AbstractText` then see nothing). -/
def parse_pubmed_article (r : RawArticle) : PyDict :=
  let d := dictSet [] "PMID" (optVal r.pmid)
  let d := dictSet d "Title"
    (PyVal.vstr (match r.articleTitle with
      | some t => pyStrip t
      | none => "No Title Available"))
  let secs := r.abstractSections.getD []
  let abstract_text := abstract_concat secs []
  let d := dictSet d "Abstract"
    (PyVal.vstr (if abstract_text ≠ "" then pyStrip abstract_text else ""))
  let d := dictSet d "Authors" (PyVal.vlist (r.authors.map author_name))
  let d := dictSet d "PublicationDate"
    (PyVal.vstr (article_publication_date r.pubDate))
  let d := dictSet d "Keywords" (PyVal.vlist (keyword_list r.keywords))
  let d := dictSet d "Journal"
    (PyVal.vstr (match r.journalTitle with
      | some jt => if pyTruthy jt then pyStrip (jt.getD "") else "Unknown"
      | none => "Unknown"))
  let sections := sections_dict secs
  let d := if sections ≠ [] then
      sections.foldl (fun d kv => dictSet d kv.1 (PyVal.vstr kv.2)) d
    else d
  let d := dictSet d "Copyright"
    (PyVal.vstr (match r.copyrightInfo with
      | some ci => if pyTruthy ci then pyStrip (ci.getD "") else "Unknown"
      | none => "Unknown"))
  d

/-- A `PubmedBookArticle` element, reduced to the values the parser reads. -/
structure RawBook where
  pmid : Option String
  bookTitle : Option String
  authors : List RawAuthor
  pubDate : Option (Option String × Option String × Option String)
  keywords : List (Option String)
  publisher : Option (Option String)
  copyrightInfo : Option (Option String)

/-- `parse_pubmed_book_article` (lines 272–339): like the article variant
but with `BookTitle` (stored raw, possibly `None`), `Publisher`, no abstract
and no extra-section pass. -/
def parse_pubmed_book_article (b : RawBook) : PyDict :=
  let d := dictSet [] "PMID" (optVal b.pmid)
  let d := dictSet d "BookTitle" (optVal b.bookTitle)
  let d := dictSet d "Authors" (PyVal.vlist (b.authors.map author_name))
  let d := dictSet d "PublicationDate"
    (PyVal.vstr (book_publication_date b.pubDate))
  let d := dictSet d "Keywords" (PyVal.vlist (keyword_list b.keywords))
  let d := dictSet d "Publisher"
    (PyVal.vstr (match b.publisher with
      | some p => if pyTruthy p then pyStrip (p.getD "") else "Unknown"
      | none => "Unknown"))
  let d := dictSet d "Copyright"
    (PyVal.vstr (match b.copyrightInfo with
      | some ci => if pyTruthy ci then pyStrip (ci.getD "") else "Unknown"
      | none => "Unknown"))
  d

/-! ## Paginated fetcher (`fetch_articles`, lines 96–153)

The EFetch responses are an oracle `page : retstart → retmax → List α`
(the parsed article dicts of one response, in document order).  The `while
True` loop is driven by fuel; one fuel unit is one loop iteration.  Python's
`if max_results:` truthiness makes `max_results = 0` behave like `None`
(fetch until an empty page), which the model keeps. -/

/-- One state of the fetch loop: `fetched` articles requested so far, the
accumulated article list, and the number of EFetch requests issued. -/
def fetchGo (page : Nat → Nat → List α) (batch_size max_results : Nat) :
    Nat → Nat → List α → Nat → List α × Nat
  | 0, _, acc, calls => (acc, calls)
  | fuel + 1, fetched, acc, calls =>
    if max_results ≠ 0 && decide (max_results ≤ fetched) then (acc, calls)
    else
      let current_batch_size :=
        if max_results ≠ 0 && decide (max_results - fetched < batch_size) then
          max_results - fetched
        else batch_size
      let batch := page fetched current_batch_size
      if batch.isEmpty then (acc, calls + 1)
      else
        fetchGo page batch_size max_results fuel (fetched + current_batch_size)
          (acc ++ batch) (calls + 1)

/-- `fetch_articles(webenv, query_key, batch_size, max_results)`: run the
loop from an empty state.  Returns the article list and the number of EFetch
requests made. -/
def fetch_articles (page : Nat → Nat → List α) (batch_size max_results fuel : Nat) :
    List α × Nat :=
  fetchGo page batch_size max_results fuel 0 [] 0

/-! ## Recursive window loader (`recursive_load` inside
`load_articles_by_date`, lines 364–407)

Dates are day numbers (`Nat`); the datetime midpoint
`start + (end - start) / 2` truncated to midnight is
`start + (e - start) / 2` in integer days.  `env start e` is the ESearch
`count` for the window `[start, e]`; `page start e` is that window's EFetch
oracle.  `remaining` is a `Nat`; the `max_results = None → float("inf")`
top-level case behaves like any huge remaining here, because the comparison
below is against `min(remaining, total_available, 9999)` either way.  The
second component of the result counts EFetch requests (ESearch calls are not
counted). -/

/-- `fetch_count = min(remaining, total_available, 9999)` (line 377). -/
def fetch_count (remaining total_available : Nat) : Nat :=
  min remaining (min total_available 9999)

/-- The guard of the bisection branch: the split at lines 390–407 runs
exactly when `fetch_count <= 9999` fails (line 379). -/
def splitBranchTaken (remaining total_available : Nat) : Bool :=
  !decide (fetch_count remaining total_available ≤ 9999)

/-- `recursive_load(query, start, end, remaining)`.  `fuel` bounds the
recursion depth, `ffuel` is passed to each fetch loop.  The bisection branch
is transcribed as written (note that in the source it would additionally
crash on reaching the second half: `timedelta` at line 405 is an unbound
name, as only `import datetime` is in scope). -/
def recursive_load (env : Nat → Nat → Nat) (page : Nat → Nat → Nat → Nat → List α) :
    Nat → Nat → Nat → Nat → Nat → List α × Nat
  | 0, _, _, _, _ => ([], 0)
  | fuel + 1, ffuel, start, e, remaining =>
    let total_available := env start e
    if total_available = 0 then ([], 0)
    else if ¬ splitBranchTaken remaining total_available then
      fetch_articles (page start e) 1000 (fetch_count remaining total_available) ffuel
    else
      let mid := start + (e - start) / 2
      let first := recursive_load env page fuel ffuel start mid remaining
      if remaining ≤ first.1.length then first
      else
        let second :=
          recursive_load env page fuel ffuel (mid + 1) e (remaining - first.1.length)
        (first.1 ++ second.1, first.2 + second.2)

/-! ## Job orchestrator (`ArticleLoader`, lines 424–573) -/

/-- `self.total = max_results if max_results else total_available`
(line 493); `max_results` is falsy when `None` or `0`. -/
def job_total (max_results : Option Nat) (total_available : Nat) : Nat :=
  match max_results with
  | some m => if m ≠ 0 then m else total_available
  | none => total_available

/-- `[l1, l1+l2, ...]`: the values of `total_fetched` after each window of
the date-range loop (line 508), given the per-window article counts. -/
def runningTotals (acc : Nat) : List Nat → List Nat
  | [] => []
  | l :: ls => (acc + l) :: runningTotals (acc + l) ls

/-- Every value ever assigned to `self.progress` during one job, in program
order: `0` in `__init__` (line 434), `0` at line 485, then `total_fetched`
after each window (line 511). -/
def progressWrites (lens : List Nat) : List Nat :=
  0 :: 0 :: runningTotals 0 lens

/-- One step of the background `task` (lines 451–560): either an assignment
to `self.status` or an operation (network or file I/O) that can raise. -/
inductive TaskStep where
  | setStatus (s : String)
  | op
deriving DecidableEq

/-- The body of `task`, flattened to its status assignments and its fallible
operations, in source order. -/
def taskSteps : List TaskStep :=
  [TaskStep.op,                                    -- makedirs / path setup (452–457)
   TaskStep.op,                                    -- output_files writes (459–461)
   TaskStep.setStatus "Starting...",               -- line 484
   TaskStep.op,                                    -- initial ESearch (490)
   TaskStep.setStatus "Downloading...",            -- line 494
   TaskStep.op,                                    -- per-window download loop (496–513)
   TaskStep.setStatus "Save article IDs using pickle",
   TaskStep.op,                                    -- pickle dump (522–523)
   TaskStep.setStatus "Save articles to JSON",
   TaskStep.op,                                    -- json dump (532–533)
   TaskStep.setStatus "Save articles to txt",
   TaskStep.op,                                    -- per-record txt files (540–542)
   TaskStep.setStatus "Creating ZIP archive",
   TaskStep.op,                                    -- zip creation (548–555)
   TaskStep.setStatus "Completed"]                 -- line 560

/-- The status after executing a prefix of the task: the last status
assigned, starting from the constructor's `"Idle"` (line 437). -/
def statusAfter (steps : List TaskStep) (init : String) : String :=
  steps.foldl
    (fun st step => match step with
      | TaskStep.setStatus s => s
      | TaskStep.op => st)
    init

/-- The status a poller observes forever after the worker thread raises an
unhandled exception while executing step `k` of the task: `task` has no
`try`/`except`, so the thread dies and `self.status` keeps the last value
assigned before step `k`. -/
def frozenStatus (k : Nat) : String :=
  statusAfter (taskSteps.take k) "Idle"

/-! ## Claim C1 — the bisection branch -/

/-- **C1** (code bug: the claim states the intended behavior; the code
clamps before comparing).  The value compared against the retrieval ceiling
at line 379 is `fetch_count = min(remaining, total_available, 9999)`, which
is at most `9999` by construction, so the bisection branch of
`recursive_load` can never run: for every `remaining` and `total_available`
the guard is false — in particular at the failing input
`total_available = 20000 > 9999` — and on any window with a nonzero count
the loader always takes the sequential-fetch branch. -/
theorem C1_split_branch_unreachable :
    (∀ remaining total_available : Nat,
      splitBranchTaken remaining total_available = false)
    ∧ (splitBranchTaken 20000 20000 = false ∧ 9999 < 20000)
    ∧ (∀ (env : Nat → Nat → Nat) (page : Nat → Nat → Nat → Nat → List Nat)
        (fuel ffuel start e remaining : Nat),
        recursive_load env page (fuel + 1) ffuel start e remaining =
          if env start e = 0 then ([], 0)
          else fetch_articles (page start e) 1000
            (fetch_count remaining (env start e)) ffuel) := by
  have hmin : ∀ remaining total_available : Nat,
      splitBranchTaken remaining total_available = false := by
    intro r a
    simp only [splitBranchTaken, Bool.not_eq_false', decide_eq_true_eq, fetch_count]
    omega
  refine ⟨hmin, ⟨hmin 20000 20000, by omega⟩, ?_⟩
  intro env page fuel ffuel start e remaining
  by_cases h : env start e = 0
  · simp [recursive_load, h]
  · simp [recursive_load, h, hmin]

/-! ## Claim C4 — empty window -/

/-- **C4** (confirmed).  When the ESearch count of a window is `0`,
`recursive_load` returns the empty list at line 373–374, before any EFetch
request: the result is `([], 0)` where the second component counts EFetch
calls. -/
theorem C4_zero_count_no_fetch {α : Type}
    (env : Nat → Nat → Nat) (page : Nat → Nat → Nat → Nat → List α)
    (fuel ffuel start e remaining : Nat)
    (hzero : env start e = 0) (hfuel : 0 < fuel) :
    recursive_load env page fuel ffuel start e remaining = ([], 0) := by
  cases fuel with
  | zero => exact absurd hfuel (by omega)
  | succ n => simp [recursive_load, hzero]

/-- Witness for C4 at a concrete window with count `0`. -/
theorem C4_zero_count_no_fetch_witness :
    (fun (_ _ : Nat) => 0) 0 10 = 0 ∧ 0 < 1 ∧
    recursive_load (fun _ _ => 0) (fun _ _ _ _ => ([] : List Nat)) 1 7 0 10 5
      = ([], 0) :=
  ⟨rfl, by omega,
    C4_zero_count_no_fetch (fun _ _ => 0) (fun _ _ _ _ => []) 1 7 0 10 5 rfl
      (by omega)⟩

/-! ## Claim C9 — the job's `total` field -/

/-- **C9** is false on the code: with `maxResults = 100` requested and only
`5` records available, line 493 still sets `total = 100` — `total` is the
raw `max_results`, never reduced to the available count. -/
theorem C9_counterexample :
    job_total (some 100) 5 = 100 ∧ ¬ job_total (some 100) 5 < 100 := by
  constructor <;> simp [job_total]

/-- **C9 amended** (corrected).  The job's final `total` equals the
requested maximum `m` whenever `m` is provided and nonzero, regardless of
how many records exist; only when `m` is absent (or `0`, falsy in Python)
does `total` equal the search-reported available count. -/
theorem C9_total_is_requested_max :
    (∀ m avail : Nat, m ≠ 0 → job_total (some m) avail = m)
    ∧ (∀ avail : Nat, job_total none avail = avail)
    ∧ (∀ avail : Nat, job_total (some 0) avail = avail) := by
  refine ⟨fun m avail hm => ?_, fun avail => rfl, fun avail => by simp [job_total]⟩
  simp [job_total, hm]

/-- Witness for C9's amended claim at `m = 100`, `avail = 5`. -/
theorem C9_total_is_requested_max_witness :
    (100 ≠ 0) ∧ job_total (some 100) 5 = 100 :=
  ⟨by omega, C9_total_is_requested_max.1 100 5 (by omega)⟩

/-! ## Claim C7 — month conversion and the date fallback -/

/-- **C7** is false on the code in its fallback half: for an unparsable
month the code still zero-pads the day.  With `Year = "2020"`,
`Month = "Foo"`, `Day = "5"` the code renders `"2020-Foo-05"` (the `try`
body succeeds because `_convert_month_to_number` swallows the `ValueError`
and returns `"Foo"`, and `day.zfill(2)` still runs), not the raw
`"2020-Foo-5"` of line 215, which is dead code. -/
theorem C7_counterexample :
    article_publication_date (some (some "2020", some "Foo", some "5"))
        = "2020-Foo-05"
    ∧ "2020-Foo-05" ≠ "2020-Foo-5" := by
  constructor
  · rfl
  · decide

/-- **C7 amended** (corrected).  `"Jan"` and `"January"` both convert to
`"01"`; with year, month and day all present (truthy) the date is rendered
`YYYY-MM-DD` with the converted month and the zero-padded day; and an
unparsable month string passes through `_convert_month_to_number`
unchanged — but the day is still zero-padded, so the fallback shape is
`YYYY-Month-DD`, not the raw `YYYY-Month-Day` string. -/
theorem C7_month_conversion :
    convert_month_to_number "Jan" = "01"
    ∧ convert_month_to_number "January" = "01"
    ∧ (∀ y m d : String, y ≠ "" → m ≠ "" → d ≠ "" →
        article_publication_date (some (some y, some m, some d)) =
          y ++ "-" ++ convert_month_to_number m ++ "-" ++ zfill 2 d)
    ∧ (∀ m : String, month_abbrevs.lookup (strLower3 m) = none →
        convert_month_to_number m = m) := by
  refine ⟨rfl, rfl, fun y m d hy hm hd => ?_, fun m h => ?_⟩
  · simp [article_publication_date, pyTruthy, hy, hm, hd]
  · simp [convert_month_to_number, h]

/-- Witness for C7's amended claim at the unparsable month `"Foo"`. -/
theorem C7_month_conversion_witness :
    ("2020" ≠ "" ∧ "Foo" ≠ "" ∧ "5" ≠ ""
      ∧ article_publication_date (some (some "2020", some "Foo", some "5")) =
          "2020" ++ "-" ++ convert_month_to_number "Foo" ++ "-" ++ zfill 2 "5")
    ∧ (month_abbrevs.lookup (strLower3 "Foo") = none
      ∧ convert_month_to_number "Foo" = "Foo") :=
  ⟨⟨by decide, by decide, by decide,
    C7_month_conversion.2.2.1 "2020" "Foo" "5" (by decide) (by decide)
      (by decide)⟩,
   ⟨by decide, C7_month_conversion.2.2.2 "Foo" (by decide)⟩⟩

/-! ## Claim C3 — no `Failed` terminal state -/

/-- Every status `statusAfter` can produce is the initial one or one
assigned by a `setStatus` step of the list. -/
theorem statusAfter_eq_init_or_mem (steps : List TaskStep) (init : String) :
    statusAfter steps init = init ∨
      ∃ s, TaskStep.setStatus s ∈ steps ∧ statusAfter steps init = s := by
  induction steps generalizing init with
  | nil => exact Or.inl rfl
  | cons step rest ih =>
    cases step with
    | setStatus s =>
      rcases ih s with h | ⟨s', hmem, hval⟩
      · exact Or.inr ⟨s, List.mem_cons_self _ _, h⟩
      · exact Or.inr ⟨s', List.mem_cons_of_mem _ hmem, hval⟩
    | op =>
      rcases ih init with h | ⟨s', hmem, hval⟩
      · exact Or.inl h
      · exact Or.inr ⟨s', List.mem_cons_of_mem _ hmem, hval⟩

/-- No status string the task ever assigns is `"Failed"`. -/
theorem taskSteps_no_failed (s : String)
    (h : TaskStep.setStatus s ∈ taskSteps) : s ≠ "Failed" := by
  simp only [taskSteps, List.mem_cons, List.not_mem_nil, or_false,
    reduceCtorEq, false_or, TaskStep.setStatus.injEq] at h
  rcases h with h | h | h | h | h | h | h <;> subst h <;> decide

/-- **C3** is false on the code (the claim states the spec's required
behavior; the code has no failure handling at all).  `task` (lines 451–560)
runs with no `try`/`except`, so an unhandled exception while executing any
step `k` kills the worker thread and the poller forever observes the last
status assigned before step `k` — never `"Failed"`, which is not among the
status strings the code can assign.  Concretely, a failure in the initial
ESearch (step 3) freezes the job at `"Starting..."`, and one during the
download loop (step 5) freezes it at `"Downloading..."`. -/
theorem C3_no_failed_transition :
    (∀ k : Nat, frozenStatus k ≠ "Failed")
    ∧ frozenStatus 3 = "Starting..."
    ∧ frozenStatus 5 = "Downloading..." := by
  refine ⟨fun k => ?_, by decide, by decide⟩
  rcases statusAfter_eq_init_or_mem (taskSteps.take k) "Idle" with h |
    ⟨s, hmem, hval⟩
  · rw [frozenStatus, h]; decide
  · rw [frozenStatus, hval]
    exact taskSteps_no_failed s (List.take_subset k taskSteps hmem)

/-! ## Claim C5 — progress is monotonically non-decreasing -/

/-- The running totals of the window loop never decrease. -/
theorem chain_runningTotals (ls : List Nat) (acc : Nat) :
    List.Chain (· ≤ ·) acc (runningTotals acc ls) := by
  induction ls generalizing acc with
  | nil => exact List.Chain.nil
  | cons l ls ih =>
    exact List.Chain.cons (Nat.le_add_right acc l) (ih (acc + l))

/-- The full sequence of values assigned to `self.progress` is pairwise
non-decreasing. -/
theorem progressWrites_pairwise (lens : List Nat) :
    (progressWrites lens).Pairwise (· ≤ ·) := by
  rw [← List.chain'_iff_pairwise]
  exact List.Chain.cons (Nat.le_refl 0) (chain_runningTotals lens 0)

/-- **C5** (confirmed).  `get_progress` returns a lock-protected snapshot of
`self.progress`, so a polling sequence is the image of a non-decreasing
sequence of write indices (each later read sees the same or a later write)
under the write list.  Every such observed sequence is monotonically
non-decreasing, for any per-window article counts `lens`. -/
theorem C5_observed_progress_monotone (lens : List Nat)
    (reads : List (Fin (progressWrites lens).length))
    (hreads : reads.Pairwise (fun i j => i ≤ j)) :
    (reads.map (fun i => (progressWrites lens).get i)).Pairwise (· ≤ ·) := by
  refine List.Pairwise.map _ (fun a b hab => ?_) hreads
  rcases lt_or_eq_of_le hab with h | h
  · exact List.pairwise_iff_get.mp (progressWrites_pairwise lens) a b h
  · rw [h]

/-- Witness for C5: windows of `2` and `3` articles, a poller that reads the
progress after launch, twice after the first window, and after the second. -/
theorem C5_observed_progress_monotone_witness :
    ([⟨0, by decide⟩, ⟨2, by decide⟩, ⟨2, by decide⟩, ⟨3, by decide⟩] :
        List (Fin (progressWrites [2, 3]).length)).Pairwise (fun i j => i ≤ j)
    ∧ (([⟨0, by decide⟩, ⟨2, by decide⟩, ⟨2, by decide⟩, ⟨3, by decide⟩] :
        List (Fin (progressWrites [2, 3]).length)).map
          (fun i => (progressWrites [2, 3]).get i)).Pairwise (· ≤ ·) :=
  ⟨by decide, C5_observed_progress_monotone [2, 3] _ (by decide)⟩

/-! ## Claim C2 — windows within the cap return `min(remaining, available)` -/

/-- The fetch loop under the full-page hypothesis: as long as every
requested page up to `want` comes back full, each iteration adds exactly
`current_batch_size` articles, and the loop ends with `want` of them.
`want - fetched` fuel suffices because `fetched` grows by at least one per
iteration. -/
theorem fetchGo_full_pages {α : Type} (page : Nat → Nat → List α)
    (bs want : Nat) (hbs : 0 < bs) (hwant : 0 < want)
    (hfull : ∀ o b, o + b ≤ want → (page o b).length = b) :
    ∀ (fuel fetched : Nat) (acc : List α) (calls : Nat),
      fetched ≤ want → want - fetched ≤ fuel →
      ((fetchGo page bs want fuel fetched acc calls).1).length =
        acc.length + (want - fetched) := by
  intro fuel
  induction fuel with
  | zero =>
    intro fetched acc calls hle hfuel
    have : want - fetched = 0 := by omega
    simp [fetchGo, this]
  | succ fuel ih =>
    intro fetched acc calls hle hfuel
    have hne : want ≠ 0 := by omega
    by_cases hdone : want ≤ fetched
    · have hzero : want - fetched = 0 := by omega
      rw [fetchGo, if_pos (by simp [hne, hdone])]
      simp [hzero]
    · push_neg at hdone
      set current := if want ≠ 0 && decide (want - fetched < bs) then
          want - fetched else bs with hcur
      have hcur2 : current = if want - fetched < bs then want - fetched
          else bs := by
        rw [hcur]; simp [hne]
      have hcur_le : fetched + current ≤ want := by
        rw [hcur2]; split <;> omega
      have hcur_pos : 0 < current := by
        rw [hcur2]; split <;> omega
      have hbatch : (page fetched current).length = current :=
        hfull fetched current hcur_le
      have hnonempty : ¬ (page fetched current).isEmpty = true := by
        rw [List.isEmpty_iff_length_eq_zero, hbatch]; omega
      rw [fetchGo]
      rw [if_neg (by simp [hne]; omega)]
      simp only [← hcur]
      rw [if_neg hnonempty]
      rw [ih (fetched + current) (acc ++ (page fetched current)) (calls + 1)
        hcur_le (by omega)]
      simp [List.length_append, hbatch]
      omega

/-- **C2** (confirmed).  For a window whose ESearch count is at most
`W = 9999` and a positive remaining budget, `recursive_load` takes the
sequential-fetch branch with `fetch_count = min(remaining, available)` and
— under the claim's hypothesis that every fetched page up to that count
comes back full — returns exactly `min(remaining, available)` records.
`ffuel ≥ min(remaining, available)` loop iterations always suffice. -/
theorem C2_within_cap_returns_min {α : Type}
    (env : Nat → Nat → Nat) (page : Nat → Nat → Nat → Nat → List α)
    (fuel ffuel start e remaining : Nat)
    (hcap : env start e ≤ 9999) (hpos : 0 < remaining) (hfuel : 0 < fuel)
    (hffuel : min remaining (env start e) ≤ ffuel)
    (hfull : ∀ o b, o + b ≤ min remaining (env start e) →
      (page start e o b).length = b) :
    ((recursive_load env page fuel ffuel start e remaining).1).length =
      min remaining (env start e) := by
  obtain ⟨f, rfl⟩ : ∃ f, fuel = f + 1 := ⟨fuel - 1, by omega⟩
  by_cases h0 : env start e = 0
  · rw [recursive_load, if_pos h0]
    simp [h0]
  · have hmin_eq : fetch_count remaining (env start e) =
        min remaining (env start e) := by
      rw [fetch_count, Nat.min_eq_left hcap]
    have hsplit : ¬ splitBranchTaken remaining (env start e) = true := by
      simp only [splitBranchTaken, Bool.not_eq_false', Bool.not_eq_true,
        decide_eq_true_eq, fetch_count]
      omega
    rw [recursive_load, if_neg h0, if_pos (by simpa using hsplit)]
    rw [fetch_articles, hmin_eq]
    have hwant : 0 < min remaining (env start e) := by
      have : 0 < env start e := Nat.pos_of_ne_zero h0
      omega
    rw [fetchGo_full_pages (page start e) 1000 (min remaining (env start e))
      (by omega) hwant hfull ffuel 0 [] 0 (by omega) (by omega)]
    simp

/-- Witness for C2: a window with `3` available records, budget `5`, pages
that come back full, one unit of recursion fuel and three loop
iterations. -/
theorem C2_within_cap_returns_min_witness :
    ((fun (_ _ : Nat) => 3) 0 100 ≤ 9999) ∧ 0 < 5 ∧ 0 < 1
    ∧ min 5 ((fun (_ _ : Nat) => 3) 0 100) ≤ 3
    ∧ (∀ o b : Nat, o + b ≤ min 5 ((fun (_ _ : Nat) => 3) 0 100) →
        ((fun (_ _ o b : Nat) => (List.range b).map (o + ·)) 0 100 o b).length
          = b)
    ∧ ((recursive_load (fun _ _ => 3)
          (fun _ _ o b => (List.range b).map (o + ·)) 1 3 0 100 5).1).length =
        min 5 ((fun (_ _ : Nat) => 3) 0 100) :=
  ⟨by decide, by decide, by decide, by decide,
   fun o b _ => by simp,
   C2_within_cap_returns_min (fun _ _ => 3)
     (fun _ _ o b => (List.range b).map (o + ·)) 1 3 0 100 5 (by decide)
     (by decide) (by decide) (by decide) (fun o b _ => by simp)⟩

/-! ## Claim C6 — at most 3 requests in any trailing 1-second interval -/

/-- Bridge between the list count of `List.range` and a `Finset.range`
filter card. -/
theorem countP_range_eq_card_filter (q : Nat → Bool) (n : Nat) :
    (List.range n).countP q =
      ((Finset.range n).filter (fun j => q j = true)).card := by
  induction n with
  | zero => simp
  | succ n ih =>
    rw [List.range_succ, List.countP_append, Finset.range_succ,
      Finset.filter_insert]
    by_cases h : q n = true
    · rw [if_pos h, Finset.card_insert_of_not_mem (by simp)]
      simp [List.countP_cons, h, ih]
    · rw [if_neg h]
      simp [List.countP_cons, h, ih]

/-- **C6** (confirmed).  Model of one `CustomPubMed` execution: request `i`
passes its gate check at time `c i` (the `while self._exceededRateLimit()`
loop exits, and the HTTP request is dispatched immediately after) and has
its timestamp `r i` appended after the response, so `c i ≤ r i`; check
times are non-decreasing (the requests are sequential; this also makes the
gate on the pruned `_requestsMade` list equal to the gate on the full
history used here, since pruning only discards timestamps that are already
outside every later check's window).  If every dispatched request passed
its gate, then every trailing one-second interval `(s, s+1]` contains at
most `3` dispatches. -/
theorem C6_rate_limit_three_per_second
    (n : Nat) (c r : Nat → ℚ)
    (hmono : ∀ i j : Nat, i ≤ j → c i ≤ c j)
    (hrec : ∀ i : Nat, c i ≤ r i)
    (hgate : ∀ i : Nat, i < n →
      exceededRateLimit (priorRecords r i) (c i) = false)
    (s : ℚ) :
    ((Finset.range n).filter (fun i => s < c i ∧ c i ≤ s + 1)).card ≤ 3 := by
  by_contra hcard
  push_neg at hcard
  set G := (Finset.range n).filter (fun i => s < c i ∧ c i ≤ s + 1) with hG
  have hne : G.Nonempty := Finset.card_pos.mp (by omega)
  set e := G.max' hne with he_def
  have heG : e ∈ G := G.max'_mem hne
  have he : e < n ∧ s < c e ∧ c e ≤ s + 1 := by
    have := heG
    rw [hG, Finset.mem_filter, Finset.mem_range] at this
    exact ⟨this.1, this.2⟩
  have hg := hgate e he.1
  rw [exceededRateLimit, decide_eq_false_iff_not, not_le] at hg
  have hconv : ((priorRecords r e).filter
        (fun t => decide (c e - 1 < t))).length =
      ((Finset.range e).filter (fun j => c e - 1 < r j)).card := by
    rw [priorRecords, ← List.countP_eq_length_filter, List.countP_map,
      countP_range_eq_card_filter]
    congr 1
    apply Finset.filter_congr
    intro j _
    simp [Function.comp]
  rw [hconv] at hg
  have hsub : G.erase e ⊆ (Finset.range e).filter (fun j => c e - 1 < r j) := by
    intro j hj
    have hj1 : j ∈ G := Finset.mem_of_mem_erase hj
    have hjne : j ≠ e := Finset.ne_of_mem_erase hj
    have hjlt : j < e := lt_of_le_of_ne (G.le_max' j hj1) hjne
    have hjw : s < c j := by
      have := hj1
      rw [hG, Finset.mem_filter] at this
      exact this.2.1
    refine Finset.mem_filter.mpr ⟨Finset.mem_range.mpr hjlt, ?_⟩
    have h1 : c j ≤ r j := hrec j
    have h2 : c e ≤ s + 1 := he.2.2
    linarith
  have hle := Finset.card_le_card hsub
  rw [Finset.card_erase_of_mem heG] at hle
  omega

/-- Witness for C6: a single request dispatched at second `0` and recorded
instantly; the gate passes (no prior requests) and the interval
`(1/2, 3/2]` contains no dispatch. -/
theorem C6_rate_limit_three_per_second_witness :
    (∀ i j : Nat, i ≤ j → ((i : ℚ) ≤ (j : ℚ)))
    ∧ (∀ i : Nat, ((i : ℚ) ≤ (i : ℚ)))
    ∧ (∀ i : Nat, i < 1 →
        exceededRateLimit (priorRecords (fun i => (i : ℚ)) i) ((i : ℚ)) = false)
    ∧ ((Finset.range 1).filter
        (fun i : ℕ => (1 : ℚ)/2 < (i : ℚ) ∧ (i : ℚ) ≤ (1 : ℚ)/2 + 1)).card ≤ 3 :=
  have hgate : ∀ i : Nat, i < 1 →
      exceededRateLimit (priorRecords (fun i => (i : ℚ)) i) ((i : ℚ)) = false := by
    intro i hi
    have h0 : i = 0 := by omega
    subst h0
    simp [exceededRateLimit, priorRecords]
  ⟨fun i j h => by exact_mod_cast h,
   fun i => le_refl _,
   hgate,
   C6_rate_limit_three_per_second 1 (fun i => (i : ℚ)) (fun i => (i : ℚ))
     (fun i j h => by show (i : ℚ) ≤ (j : ℚ); exact_mod_cast h)
     (fun i => le_refl _) hgate ((1 : ℚ)/2)⟩

/-! ## Dictionary lemmas -/

/-- After an in-place update of an existing key, `find?` on that key returns
the written binding. -/
theorem find?_map_set (k : String) (v : PyVal) :
    ∀ d : PyDict, d.any (fun p => p.1 == k) = true →
      (d.map (fun p => if p.1 == k then (k, v) else p)).find?
          (fun p => p.1 == k) = some (k, v) := by
  intro d
  induction d with
  | nil => intro h; simp at h
  | cons p t ih =>
    intro h
    rw [List.map_cons]
    by_cases hp : (p.1 == k) = true
    · rw [if_pos hp]
      exact @List.find?_cons_of_pos _ (fun q => q.1 == k) (k, v) _ (by simp)
    · rw [if_neg hp]
      rw [@List.find?_cons_of_neg _ (fun q => q.1 == k) p _ hp]
      apply ih
      rw [List.any_cons] at h
      have hp' : (p.1 == k) = false := by
        cases hpc : (p.1 == k)
        · rfl
        · exact absurd hpc hp
      rw [hp', Bool.false_or] at h
      exact h

/-- An in-place update of key `k` does not change `find?` on another key. -/
theorem find?_map_set_ne (k k' : String) (v : PyVal) (hne : k' ≠ k) :
    ∀ d : PyDict,
      (d.map (fun p => if p.1 == k then (k, v) else p)).find?
          (fun p => p.1 == k') = d.find? (fun p => p.1 == k') := by
  intro d
  induction d with
  | nil => rfl
  | cons p t ih =>
    rw [List.map_cons]
    by_cases hp : (p.1 == k) = true
    · have hpk : p.1 = k := by simpa using hp
      rw [if_pos hp,
        @List.find?_cons_of_neg _ (fun q => q.1 == k') (k, v) _
          (by simp [Ne.symm hne]),
        @List.find?_cons_of_neg _ (fun q => q.1 == k') p _
          (by simp [hpk, Ne.symm hne]),
        ih]
    · rw [if_neg hp]
      by_cases hq : (p.1 == k') = true
      · rw [@List.find?_cons_of_pos _ (fun q => q.1 == k') p _ hq,
          @List.find?_cons_of_pos _ (fun q => q.1 == k') p _ hq]
      · rw [@List.find?_cons_of_neg _ (fun q => q.1 == k') p _ hq,
          @List.find?_cons_of_neg _ (fun q => q.1 == k') p _ hq,
          ih]

/-- Writing key `k` then reading `k` yields the written value. -/
theorem dictGet_dictSet_self (d : PyDict) (k : String) (v : PyVal) :
    dictGet (dictSet d k v) k = some v := by
  rw [dictGet, dictSet]
  by_cases hany : d.any (fun p => p.1 == k) = true
  · rw [if_pos hany, find?_map_set k v d hany]
    rfl
  · rw [if_neg hany]
    have hfalse : d.any (fun p => p.1 == k) = false := by
      cases hc : d.any (fun p => p.1 == k)
      · rfl
      · exact absurd hc hany
    have hnone : d.find? (fun p => p.1 == k) = none :=
      List.find?_eq_none.mpr (List.any_eq_false.mp hfalse)
    rw [List.find?_append, hnone, Option.none_or,
      @List.find?_cons_of_pos _ (fun q => q.1 == k) (k, v) _ (by simp)]
    rfl

/-- Writing key `k` leaves reads of any other key unchanged. -/
theorem dictGet_dictSet_ne (d : PyDict) (k : String) (v : PyVal) (k' : String)
    (hne : k' ≠ k) :
    dictGet (dictSet d k v) k' = dictGet d k' := by
  rw [dictGet, dictGet, dictSet]
  by_cases hany : d.any (fun p => p.1 == k) = true
  · rw [if_pos hany, find?_map_set_ne k k' v hne d]
  · rw [if_neg hany, List.find?_append]
    have hlast : (([(k, v)] : PyDict).find? (fun p => p.1 == k')) = none := by
      rw [@List.find?_cons_of_neg _ (fun q => q.1 == k') (k, v) _
        (by simp [Ne.symm hne])]
      rfl
    rw [hlast]
    cases d.find? (fun p => p.1 == k') <;> rfl

/-- Membership in a string-dict after an update. -/
theorem mem_strDictSet (d : List (String × String)) (k v : String)
    (kv : String × String) (h : kv ∈ strDictSet d k v) :
    kv ∈ d ∨ kv = (k, v) := by
  rw [strDictSet] at h
  by_cases hany : d.any (fun p => p.1 == k) = true
  · rw [if_pos hany] at h
    rcases List.mem_map.mp h with ⟨p, hp, hfp⟩
    by_cases hcase : (p.1 == k) = true
    · rw [if_pos hcase] at hfp
      exact Or.inr hfp.symm
    · rw [if_neg hcase] at hfp
      exact Or.inl (hfp ▸ hp)
  · rw [if_neg hany] at h
    rcases List.mem_append.mp h with h | h
    · exact Or.inl h
    · simp only [List.mem_singleton] at h
      exact Or.inr h

/-- Every binding of the `sections` dict comes from a section whose label is
truthy (so equals `some` of the key) and whose stripped content is
nonempty. -/
theorem mem_sections_dict :
    ∀ (secs : List (Option String × String)) (d0 : List (String × String))
      (kv : String × String),
      kv ∈ secs.foldl
        (fun d p =>
          let content := pyStrip p.2
          if pyTruthy p.1 && !(content == "") then
            strDictSet d (p.1.getD "") content
          else d) d0 →
      kv ∈ d0 ∨ ∃ p ∈ secs, p.1 = some kv.1 ∧ pyStrip p.2 ≠ "" := by
  intro secs
  induction secs with
  | nil => intro d0 kv h; exact Or.inl h
  | cons s t ih =>
    intro d0 kv h
    rw [List.foldl_cons] at h
    rcases ih _ kv h with hd | ⟨p, hp, hp1, hp2⟩
    · by_cases hcond : (pyTruthy s.1 && !(pyStrip s.2 == "")) = true
      · rw [if_pos hcond] at hd
        rcases mem_strDictSet _ _ _ _ hd with hd | hkv
        · exact Or.inl hd
        · refine Or.inr ⟨s, List.mem_cons_self _ _, ?_, ?_⟩
          · have hcond' := hcond
            simp only [Bool.and_eq_true] at hcond'
            have ht : pyTruthy s.1 = true := hcond'.1
            cases hs : s.1 with
            | none => rw [hs] at ht; simp [pyTruthy] at ht
            | some l =>
              rw [hkv]
              simp [hs]
          · have hcond' := hcond
            simp only [Bool.and_eq_true] at hcond'
            simpa using hcond'.2
      · rw [if_neg hcond] at hd
        exact Or.inl hd
    · exact Or.inr ⟨p, List.mem_cons_of_mem _ hp, hp1, hp2⟩

/-- A fold of `dictSet`s whose keys all differ from `k` leaves reads of `k`
unchanged. -/
theorem dictGet_foldl_sections (k : String) :
    ∀ (kvs : List (String × String)) (d : PyDict),
      (∀ kv ∈ kvs, kv.1 ≠ k) →
      dictGet (kvs.foldl (fun d kv => dictSet d kv.1 (PyVal.vstr kv.2)) d) k =
        dictGet d k := by
  intro kvs
  induction kvs with
  | nil => intro d _; rfl
  | cons kv t ih =>
    intro d h
    rw [List.foldl_cons,
      ih _ (fun x hx => h x (List.mem_cons_of_mem _ hx)),
      dictGet_dictSet_ne _ _ _ _ (Ne.symm (h kv (List.mem_cons_self _ _)))]

/-! ## Claim C10 — missing PMID becomes a null field -/

/-- **C10** is false as stated for the article variant: the claim quantifies
over *every* raw record without a PMID element, but a record that also
carries an abstract section labelled `"PMID"` has that section's content
written over the `PMID` entry by `article_dict.update(sections)` at
line 251, so the normalizer returns a non-null `PMID` instead of `None`. -/
theorem C10_counterexample :
    dictGet (parse_pubmed_article
        ⟨none, none, some [(some "PMID", "X")], [], none, [], none, none⟩)
      "PMID" = some (PyVal.vstr "X")
    ∧ some (PyVal.vstr "X") ≠ some PyVal.vnone := by
  constructor
  · rfl
  · simp

/-- **C10 amended** (corrected).  For every raw record without a PMID
element, the normalizer stores `None` under `"PMID"` — without raising and
without a default — provided (for the article variant) no abstract section
is labelled `"PMID"` with nonempty stripped content, since such a section's
top-level field would overwrite the entry; the book-article variant has no
section pass and needs no proviso. -/
theorem C10_pmid_none_preserved (r : RawArticle) (b : RawBook)
    (hr : r.pmid = none)
    (hsec : ∀ p ∈ r.abstractSections.getD [],
      ¬(p.1 = some "PMID" ∧ pyStrip p.2 ≠ ""))
    (hb : b.pmid = none) :
    dictGet (parse_pubmed_article r) "PMID" = some PyVal.vnone
    ∧ dictGet (parse_pubmed_book_article b) "PMID" = some PyVal.vnone := by
  constructor
  · simp only [parse_pubmed_article]
    rw [dictGet_dictSet_ne _ "Copyright" _ "PMID" (by decide)]
    have hfold : ∀ d : PyDict,
        dictGet (if sections_dict (r.abstractSections.getD []) ≠ [] then
            (sections_dict (r.abstractSections.getD [])).foldl
              (fun d kv => dictSet d kv.1 (PyVal.vstr kv.2)) d
          else d) "PMID" = dictGet d "PMID" := by
      intro d
      split
      · apply dictGet_foldl_sections
        intro kv hkv hcontra
        rcases mem_sections_dict (r.abstractSections.getD []) [] kv hkv with
          h | ⟨p, hp, hp1, hp2⟩
        · simp at h
        · exact hsec p hp ⟨hcontra ▸ hp1, hp2⟩
      · rfl
    rw [hfold]
    rw [dictGet_dictSet_ne _ "Journal" _ "PMID" (by decide),
      dictGet_dictSet_ne _ "Keywords" _ "PMID" (by decide),
      dictGet_dictSet_ne _ "PublicationDate" _ "PMID" (by decide),
      dictGet_dictSet_ne _ "Authors" _ "PMID" (by decide),
      dictGet_dictSet_ne _ "Abstract" _ "PMID" (by decide),
      dictGet_dictSet_ne _ "Title" _ "PMID" (by decide),
      dictGet_dictSet_self [] "PMID" (optVal r.pmid), hr]
    rfl
  · simp only [parse_pubmed_book_article]
    rw [dictGet_dictSet_ne _ "Copyright" _ "PMID" (by decide),
      dictGet_dictSet_ne _ "Publisher" _ "PMID" (by decide),
      dictGet_dictSet_ne _ "Keywords" _ "PMID" (by decide),
      dictGet_dictSet_ne _ "PublicationDate" _ "PMID" (by decide),
      dictGet_dictSet_ne _ "Authors" _ "PMID" (by decide),
      dictGet_dictSet_ne _ "BookTitle" _ "PMID" (by decide),
      dictGet_dictSet_self [] "PMID" (optVal b.pmid), hb]
    rfl

/-- Witness for C10's amended claim: an article with one ordinary labelled
section and no PMID element, and a book with no PMID element. -/
theorem C10_pmid_none_preserved_witness :
    ((⟨none, none, some [(some "Background", "b")], [], none, [], none,
        none⟩ : RawArticle).pmid = none)
    ∧ (∀ p ∈ ((⟨none, none, some [(some "Background", "b")], [], none, [],
        none, none⟩ : RawArticle).abstractSections.getD []),
        ¬(p.1 = some "PMID" ∧ pyStrip p.2 ≠ ""))
    ∧ ((⟨none, none, [], none, [], none, none⟩ : RawBook).pmid = none)
    ∧ dictGet (parse_pubmed_article
        ⟨none, none, some [(some "Background", "b")], [], none, [], none,
          none⟩) "PMID" = some PyVal.vnone
    ∧ dictGet (parse_pubmed_book_article
        ⟨none, none, [], none, [], none, none⟩) "PMID" = some PyVal.vnone := by
  have h := C10_pmid_none_preserved
    ⟨none, none, some [(some "Background", "b")], [], none, [], none, none⟩
    ⟨none, none, [], none, [], none, none⟩
    rfl (by decide) rfl
  exact ⟨rfl, by decide, rfl, h.1, h.2⟩

/-! ## String lemmas for the abstract assembly -/

/-- Two strings with the same character data are equal. -/
theorem string_eq_of_data (s t : String) (h : s.data = t.data) : s = t := by
  have heq : (⟨s.data⟩ : String) = ⟨t.data⟩ := by rw [h]
  exact heq

/-- `String.append` concatenates the character data. -/
theorem string_data_append (s t : String) : (s ++ t).data = s.data ++ t.data :=
  rfl

/-- String append is associative. -/
theorem string_append_assoc (a b c : String) : a ++ b ++ c = a ++ (b ++ c) :=
  string_eq_of_data _ _ (by
    simp only [string_data_append, List.append_assoc])

/-- Appending the empty string is the identity. -/
theorem string_append_empty (s : String) : s ++ "" = s :=
  string_eq_of_data _ _ (by
    simp only [string_data_append]
    exact List.append_nil _)

/-- A string with nonempty data is not the empty string. -/
theorem ne_empty_of_data_ne_nil (s : String) (h : s.data ≠ []) : s ≠ "" := by
  intro hs
  rw [hs] at h
  exact h rfl

/-- A nonempty string has nonempty data. -/
theorem data_ne_nil_of_ne_empty (s : String) (h : s ≠ "") : s.data ≠ [] := by
  intro hd
  exact h (string_eq_of_data _ _ hd)

/-- Dropping trailing whitespace distributes over an append whose right part
keeps at least one character. -/
theorem rstripL_append_ne_nil (l₁ l₂ : List Char) (h : rstripL l₂ ≠ []) :
    rstripL (l₁ ++ l₂) = l₁ ++ rstripL l₂ := by
  induction l₁ with
  | nil => rfl
  | cons c t ih =>
    rw [List.cons_append]
    simp only [rstripL]
    rw [ih]
    have hne : ¬ ((t ++ rstripL l₂ : List Char) = []) := by
      intro hcontra
      exact h (List.append_eq_nil.mp hcontra).2
    simp [hne]

/-- A trailing whitespace character is dropped. -/
theorem rstripL_append_space (l : List Char) (c0 : Char)
    (hc : pyIsSpace c0 = true) :
    rstripL (l ++ [c0]) = rstripL l := by
  induction l with
  | nil => simp [rstripL, hc]
  | cons c t ih =>
    rw [List.cons_append]
    simp only [rstripL]
    rw [ih]

/-- `rstripL` is idempotent. -/
theorem rstripL_idem (l : List Char) : rstripL (rstripL l) = rstripL l := by
  induction l with
  | nil => rfl
  | cons c t ih =>
    have hstep : rstripL (c :: t) =
        if (decide (rstripL t = []) && pyIsSpace c) = true then []
        else c :: rstripL t := by
      simp only [rstripL]
    rw [hstep]
    by_cases hcond : (decide (rstripL t = []) && pyIsSpace c) = true
    · rw [if_pos hcond]
      rfl
    · rw [if_neg hcond]
      have hstep2 : rstripL (c :: rstripL t) =
          if (decide (rstripL (rstripL t) = []) && pyIsSpace c) = true then []
          else c :: rstripL (rstripL t) := by
        simp only [rstripL]
      rw [hstep2, ih, if_neg hcond]

/-- The data of `pyStrip s`, unfolded. -/
theorem pyStrip_data (s : String) :
    (pyStrip s).data = rstripL (lstripL s.data) := rfl

/-- The data of a stripped string bears no trailing whitespace. -/
theorem rstripL_pyStrip (s : String) :
    rstripL (pyStrip s).data = (pyStrip s).data := by
  show rstripL (rstripL (lstripL s.data)) = rstripL (lstripL s.data)
  exact rstripL_idem _

/-- Dropping leading whitespace distributes over an append whose left part
keeps at least one character. -/
theorem lstripL_append_ne_nil (l₁ l₂ : List Char) (h : lstripL l₁ ≠ []) :
    lstripL (l₁ ++ l₂) = lstripL l₁ ++ l₂ := by
  rw [lstripL, lstripL, List.dropWhile_append]
  have hfalse : (List.dropWhile pyIsSpace l₁).isEmpty = false := by
    cases hc : (List.dropWhile pyIsSpace l₁).isEmpty
    · rfl
    · exact absurd (List.isEmpty_iff.mp hc) h
  rw [hfalse]
  simp

/-! ## Claim C8 — abstract assembly and top-level section fields -/

/-- Stripping the assembled two-section abstract removes exactly the final
newline when the last section's text is stripped and nonempty. -/
theorem pyStrip_two_sections (m' r' : String)
    (hr1 : rstripL r'.data = r'.data) (hr2 : r'.data ≠ []) :
    pyStrip ("Methods: " ++ m' ++ "\n" ++ "Results: " ++ r' ++ "\n") =
      "Methods: " ++ m' ++ "\n" ++ "Results: " ++ r' := by
  apply string_eq_of_data
  rw [pyStrip_data]
  have hnl : ("\n" : String).data = ['\n'] := by decide
  have hdata : ("Methods: " ++ m' ++ "\n" ++ "Results: " ++ r' ++ "\n").data
      = "Methods: ".data ++
          (m'.data ++ (['\n'] ++ ("Results: ".data ++ (r'.data ++ ['\n'])))) := by
    simp only [string_data_append, hnl, List.append_assoc]
  rw [hdata]
  rw [lstripL_append_ne_nil _ _ (by decide)]
  rw [show lstripL ("Methods: ".data) = "Methods: ".data from by decide]
  have hre : "Methods: ".data ++
        (m'.data ++ (['\n'] ++ ("Results: ".data ++ (r'.data ++ ['\n']))))
      = (("Methods: ".data ++ (m'.data ++ (['\n'] ++ "Results: ".data))) ++
          r'.data) ++ ['\n'] := by
    simp only [List.append_assoc]
  rw [hre, rstripL_append_space _ '\n' (by decide)]
  rw [rstripL_append_ne_nil _ _ (by rw [hr1]; exact hr2), hr1]
  simp only [string_data_append, hnl, List.append_assoc]

/-- Unfolding the abstract loop on the two Methods/Results sections. -/
theorem abstract_concat_two (m r : String) (hne : pyStrip r ≠ pyStrip m) :
    abstract_concat [(some "Methods", m), (some "Results", r)] [] =
      "Methods: " ++ pyStrip m ++ "\n" ++ "Results: " ++ pyStrip r ++ "\n" := by
  rw [abstract_concat]
  rw [if_neg (List.not_mem_nil _)]
  rw [if_pos (show pyTruthy (some "Methods") = true from rfl)]
  rw [abstract_concat]
  rw [if_neg (by simp [hne])]
  rw [if_pos (show pyTruthy (some "Results") = true from rfl)]
  rw [abstract_concat]
  rw [string_append_empty]
  rw [show ((some "Methods" : Option String).getD "") = "Methods" from rfl]
  rw [show ((some "Results" : Option String).getD "") = "Results" from rfl]
  rw [show ("Methods" ++ ": " : String) = "Methods: " from rfl]
  rw [show ("Results" ++ ": " : String) = "Results: " from rfl]
  simp only [string_append_assoc]

/-- **C8** is false as stated, at concrete records: (i) the final trim also
strips *leading* whitespace (a label `" Methods"` with a leading space loses
it, where the claim's trailing-only trim would keep it); (ii) a labelled
section with empty text is skipped by the top-level pass, so no `Methods`
field appears even though the claim promises one; (iii) duplicate skipping
compares *stripped* texts, so the distinct raw texts `"a"` and `" a"` yield
only one assembled section; and a section labelled `"Abstract"` even
overwrites the assembled Abstract itself. -/
theorem C8_counterexample :
    (dictGet (parse_pubmed_article
        ⟨none, none, some [(some " Methods", "x")], [], none, [], none, none⟩)
        "Abstract" = some (PyVal.vstr "Methods: x")
      ∧ claim_abstract_assembly [(some " Methods", "x")] = " Methods: x"
      ∧ ("Methods: x" : String) ≠ " Methods: x")
    ∧ dictGet (parse_pubmed_article
        ⟨none, none, some [(some "Methods", ""), (some "Results", "rr")], [],
          none, [], none, none⟩) "Methods" = none
    ∧ (dictGet (parse_pubmed_article
        ⟨none, none, some [(some "Methods", "a"), (some "Results", " a")], [],
          none, [], none, none⟩) "Abstract" = some (PyVal.vstr "Methods: a")
      ∧ ("a" : String) ≠ " a")
    ∧ (dictGet (parse_pubmed_article
        ⟨none, none, some [(some "Abstract", "z")], [], none, [], none, none⟩)
        "Abstract" = some (PyVal.vstr "z")
      ∧ ("z" : String) ≠ "Abstract: z") := by
  exact ⟨⟨rfl, rfl, by decide⟩, rfl, ⟨rfl, by decide⟩, ⟨rfl, by decide⟩⟩

/-- **C8 amended** (corrected).  The normalizer assembles `Abstract` by
concatenating each kept section as `"<Label>: <stripped text>\n"`, skipping
a section whose *stripped* text duplicates an earlier kept section's
stripped text, then trimming *leading and trailing* whitespace (first
conjunct: the stored value is exactly `pyStrip` of the assembled string, for
every record whose sections cannot overwrite the field).  Two sections
labelled `"Methods"` and `"Results"` whose stripped texts are distinct and
*nonempty* yield `"Methods: <m>\nResults: <r>"` and appear as top-level
fields `Methods` and `Results` holding those stripped texts. -/
theorem C8_abstract_assembly (pm ti : Option String) (au : List RawAuthor)
    (pd : Option (Option String × Option String × Option String))
    (kw : List (Option String)) (jt ci : Option (Option String))
    (secs : List (Option String × String)) (m r : String)
    (hsec : ∀ p ∈ secs, ¬(p.1 = some "Abstract" ∧ pyStrip p.2 ≠ ""))
    (hm : pyStrip m ≠ "") (hr : pyStrip r ≠ "") (hne : pyStrip m ≠ pyStrip r) :
    dictGet (parse_pubmed_article ⟨pm, ti, some secs, au, pd, kw, jt, ci⟩)
        "Abstract"
      = some (PyVal.vstr (pyStrip (abstract_concat secs [])))
    ∧ dictGet (parse_pubmed_article
        ⟨pm, ti, some [(some "Methods", m), (some "Results", r)], au, pd, kw,
          jt, ci⟩) "Abstract"
      = some (PyVal.vstr
          ("Methods: " ++ pyStrip m ++ "\nResults: " ++ pyStrip r))
    ∧ dictGet (parse_pubmed_article
        ⟨pm, ti, some [(some "Methods", m), (some "Results", r)], au, pd, kw,
          jt, ci⟩) "Methods" = some (PyVal.vstr (pyStrip m))
    ∧ dictGet (parse_pubmed_article
        ⟨pm, ti, some [(some "Methods", m), (some "Results", r)], au, pd, kw,
          jt, ci⟩) "Results" = some (PyVal.vstr (pyStrip r)) := by
  have habs_if : ∀ s : String,
      (if s ≠ "" then pyStrip s else "") = pyStrip s := by
    intro s
    split
    · rfl
    · rename_i h
      have hs : s = "" := not_not.mp h
      rw [hs]
      rfl
  have hmb : (pyStrip m == "") = false := by
    rw [beq_eq_false_iff_ne]; exact hm
  have hrb : (pyStrip r == "") = false := by
    rw [beq_eq_false_iff_ne]; exact hr
  have hsecdict : sections_dict [(some "Methods", m), (some "Results", r)] =
      [("Methods", pyStrip m), ("Results", pyStrip r)] := by
    simp only [sections_dict, List.foldl_cons, List.foldl_nil]
    rw [if_pos (by rw [hrb]; rfl), if_pos (by rw [hmb]; rfl)]
    rfl
  have habs2 : abstract_concat [(some "Methods", m), (some "Results", r)] [] =
      "Methods: " ++ pyStrip m ++ "\n" ++ "Results: " ++ pyStrip r ++ "\n" :=
    abstract_concat_two m r (Ne.symm hne)
  have hXne : abstract_concat [(some "Methods", m), (some "Results", r)] []
      ≠ "" := by
    rw [habs2]
    apply ne_empty_of_data_ne_nil
    have hM : ("Methods: ").data ≠ [] := by decide
    simp only [string_data_append]
    simp [List.append_eq_nil, hM]
  have hstrip2 :
      pyStrip ("Methods: " ++ pyStrip m ++ "\n" ++ "Results: " ++ pyStrip r
          ++ "\n")
        = "Methods: " ++ pyStrip m ++ "\nResults: " ++ pyStrip r := by
    rw [pyStrip_two_sections (pyStrip m) (pyStrip r) (rstripL_pyStrip r)
      (data_ne_nil_of_ne_empty _ hr)]
    rw [string_append_assoc ("Methods: " ++ pyStrip m) "\n" "Results: "]
    rw [show ("\n" ++ "Results: " : String) = "\nResults: " from rfl]
  refine ⟨?_, ?_, ?_, ?_⟩
  · -- generic record: Abstract is pyStrip of the assembled concatenation
    simp only [parse_pubmed_article, Option.getD_some]
    rw [dictGet_dictSet_ne _ "Copyright" _ "Abstract" (by decide)]
    have hfold : ∀ d : PyDict,
        dictGet (if sections_dict secs ≠ [] then
            (sections_dict secs).foldl
              (fun d kv => dictSet d kv.1 (PyVal.vstr kv.2)) d
          else d) "Abstract" = dictGet d "Abstract" := by
      intro d
      split
      · apply dictGet_foldl_sections
        intro kv hkv hcontra
        rcases mem_sections_dict secs [] kv hkv with h | ⟨p, hp, hp1, hp2⟩
        · simp at h
        · exact hsec p hp ⟨hcontra ▸ hp1, hp2⟩
      · rfl
    rw [hfold]
    rw [dictGet_dictSet_ne _ "Journal" _ "Abstract" (by decide),
      dictGet_dictSet_ne _ "Keywords" _ "Abstract" (by decide),
      dictGet_dictSet_ne _ "PublicationDate" _ "Abstract" (by decide),
      dictGet_dictSet_ne _ "Authors" _ "Abstract" (by decide),
      dictGet_dictSet_self _ "Abstract" _]
    rw [habs_if]
  · -- Methods/Results record: the assembled Abstract
    simp only [parse_pubmed_article, Option.getD_some]
    rw [dictGet_dictSet_ne _ "Copyright" _ "Abstract" (by decide)]
    rw [hsecdict]
    rw [if_pos (by simp)]
    simp only [List.foldl_cons, List.foldl_nil]
    rw [dictGet_dictSet_ne _ "Results" _ "Abstract" (by decide),
      dictGet_dictSet_ne _ "Methods" _ "Abstract" (by decide),
      dictGet_dictSet_ne _ "Journal" _ "Abstract" (by decide),
      dictGet_dictSet_ne _ "Keywords" _ "Abstract" (by decide),
      dictGet_dictSet_ne _ "PublicationDate" _ "Abstract" (by decide),
      dictGet_dictSet_ne _ "Authors" _ "Abstract" (by decide),
      dictGet_dictSet_self _ "Abstract" _]
    rw [if_pos hXne, habs2, hstrip2]
  · -- top-level Methods field
    simp only [parse_pubmed_article, Option.getD_some]
    rw [dictGet_dictSet_ne _ "Copyright" _ "Methods" (by decide)]
    rw [hsecdict]
    rw [if_pos (by simp)]
    simp only [List.foldl_cons, List.foldl_nil]
    rw [dictGet_dictSet_ne _ "Results" _ "Methods" (by decide),
      dictGet_dictSet_self _ "Methods" _]
  · -- top-level Results field
    simp only [parse_pubmed_article, Option.getD_some]
    rw [dictGet_dictSet_ne _ "Copyright" _ "Results" (by decide)]
    rw [hsecdict]
    rw [if_pos (by simp)]
    simp only [List.foldl_cons, List.foldl_nil]
    rw [dictGet_dictSet_self _ "Results" _]

/-- Witness for C8's amended claim: an ordinary one-section record, and a
Methods/Results record with distinct nonempty texts. -/
theorem C8_abstract_assembly_witness :
    (∀ p ∈ [((some "Background" : Option String), "b")],
      ¬(p.1 = some "Abstract" ∧ pyStrip p.2 ≠ ""))
    ∧ pyStrip "alpha" ≠ "" ∧ pyStrip "beta" ≠ ""
    ∧ pyStrip "alpha" ≠ pyStrip "beta"
    ∧ dictGet (parse_pubmed_article
        ⟨none, none, some [(some "Background", "b")], [], none, [], none,
          none⟩) "Abstract"
      = some (PyVal.vstr
          (pyStrip (abstract_concat [(some "Background", "b")] [])))
    ∧ dictGet (parse_pubmed_article
        ⟨none, none, some [(some "Methods", "alpha"), (some "Results", "beta")],
          [], none, [], none, none⟩) "Abstract"
      = some (PyVal.vstr
          ("Methods: " ++ pyStrip "alpha" ++ "\nResults: " ++ pyStrip "beta"))
    ∧ dictGet (parse_pubmed_article
        ⟨none, none, some [(some "Methods", "alpha"), (some "Results", "beta")],
          [], none, [], none, none⟩) "Methods"
      = some (PyVal.vstr (pyStrip "alpha"))
    ∧ dictGet (parse_pubmed_article
        ⟨none, none, some [(some "Methods", "alpha"), (some "Results", "beta")],
          [], none, [], none, none⟩) "Results"
      = some (PyVal.vstr (pyStrip "beta")) := by
  have h := C8_abstract_assembly none none [] none [] none none
    [(some "Background", "b")] "alpha" "beta" (by decide) (by decide)
    (by decide) (by decide)
  exact ⟨by decide, by decide, by decide, by decide, h.1, h.2.1, h.2.2.1,
    h.2.2.2⟩
